import Mathlib

/-!
Verification development for the cloudflare/mcp gateway.

This file gives a shallow embedding, in Lean 4, of the parts of the
repository that the specification's claims talk about:

* the process-wide outbound fetch gate (`GlobalOutbound.fetch`, src/index.ts);
* the dual-mode authentication dispatcher and the API-token mode
  (src/index.ts, src/auth/api-token-mode.ts, src/auth/oauth-handler.ts);
* the consent-form parsing and scope selection
  (src/auth/workers-oauth-utils.ts, src/auth/oauth-handler.ts);
* the single-use pending-authorization state (`validateOAuthState`);
* the GraphQL/REST response normalization inside the sandboxed code
  executor (src/executor.ts);
* the response truncator (modelled from the spec, see below);
* the `$ref` resolver of the spec processor (src/spec-processor.ts).

JavaScript strings are modelled by `String`, `headers.get` by
`Option String` fields, thrown exceptions by `Except`, and the external
key-value store by an association list that every stateful operation
threads explicitly.  Cryptographic primitives (SHA-256, HMAC) are taken
as function parameters: the code only ever compares their outputs.
-/

/-! ## String helpers mirroring the JavaScript string operations used -/

/-- JavaScript `p.startsWith(q)` restricted to the ASCII prefixes used by the code. -/
def strStartsWith (s p : String) : Bool :=
  p.data.isPrefixOf s.data

/-- JavaScript `s.slice(n)` / `s.substring(n)` (character based). -/
def strDropChars (s : String) (n : Nat) : String :=
  ⟨s.data.drop n⟩

/-- JavaScript `s.endsWith(p)`. -/
def strEndsWith (s p : String) : Bool :=
  p.data.isSuffixOf s.data

/-- Split a character list at every occurrence of `c`, JavaScript
`split` semantics: the empty list yields one empty segment. -/
def splitCharList (c : Char) : List Char → List (List Char)
  | [] => [[]]
  | x :: xs =>
    let rest := splitCharList c xs
    if x = c then [] :: rest
    else
      match rest with
      | [] => [[x]]
      | r :: rs => (x :: r) :: rs

/-- JavaScript `s.split(c)` for a one-character separator. -/
def strSplitOn (s : String) (c : Char) : List String :=
  (splitCharList c s.data).map fun cs => ⟨cs⟩

/-- JavaScript `s.trim()`. -/
def strTrim (s : String) : String :=
  ⟨((s.data.dropWhile Char.isWhitespace).reverse.dropWhile Char.isWhitespace).reverse⟩

/-- JavaScript truthiness of a nullable string (`null` and `""` are falsy). -/
def jsTruthyStr : Option String → Bool
  | none => false
  | some s => s != ""

/-! ## Data model: credential bundles (src/auth/types.ts) -/

/-- A Cloudflare account as returned by the `/accounts` endpoint. -/
structure Account where
  id : String
  name : String
deriving DecidableEq, Repr

/-- A Cloudflare user as returned by the `/user` endpoint. -/
structure User where
  id : String
  email : String
deriving DecidableEq, Repr

/-- The `AuthProps` discriminated union: exactly one variant per
authenticated request. -/
inductive AuthProps where
  | user_token (accessToken : String) (user : User) (accounts : List Account)
  | account_token (accessToken : String) (account : Account)
  | global_api_key (email apiKey : String) (user : User) (accounts : List Account)
deriving DecidableEq, Repr

/-- The slice of an inbound HTTP request the authentication dispatcher
reads: `headers.get` returns `null` (here `none`) for absent headers. -/
structure HttpRequest where
  authorization : Option String := none
  xAuthEmail : Option String := none
  xAuthKey : Option String := none
deriving DecidableEq, Repr

/-! ## src/auth/api-token-mode.ts -/

/-- `isGlobalApiKey`: both `X-Auth-Email` and `X-Auth-Key` present (and
truthy, per the JavaScript `!!(a && b)`). -/
def isGlobalApiKey (request : HttpRequest) : Bool :=
  jsTruthyStr request.xAuthEmail && jsTruthyStr request.xAuthKey

/-- `isDirectApiToken`: a Bearer token that does not look like an
OAuth-issued `userId:grantId:secret` token (exactly 3 colon-separated parts). -/
def isDirectApiToken (request : HttpRequest) : Bool :=
  match request.authorization with
  | none => false
  | some authHeader =>
    if strStartsWith authHeader ("Bearer ") then
      let token := strDropChars authHeader 7
      (strSplitOn token ':').length != 3
    else false

/-- `extractBearerToken`. -/
def extractBearerToken (request : HttpRequest) : Option String :=
  match request.authorization with
  | none => none
  | some authHeader =>
    if strStartsWith authHeader ("Bearer ") then some (strDropChars authHeader 7)
    else none

/-- `buildAuthProps`: user present gives a `user_token`, otherwise the
first account gives an `account_token`, otherwise the construction throws. -/
def buildAuthProps (token : String) (user : Option User)
    (accounts : Option (List Account)) : Except String AuthProps :=
  match user with
  | some u => .ok (.user_token token u (accounts.getD []))
  | none =>
    match accounts with
    | some (a :: _) => .ok (.account_token token a)
    | _ => .error ("Cannot build auth props: no user or account information")

/-! ## src/auth/oauth-handler.ts: getUserAndAccounts

The two upstream calls are modelled by their already-parsed JSON
envelopes (`success` flag plus optional `result`); the JavaScript
truthiness test `success && result` is `success` together with `result`
being present. -/

/-- The conventional Cloudflare REST envelope for the identity endpoints. -/
structure ApiResp (α : Type) where
  success : Bool
  result : Option α
deriving DecidableEq, Repr

/-- The accounts list the code parses from the `/accounts` response
(`accountsData.success && accountsData.result ? parse : []`). -/
def parsedAccounts (accountsData : ApiResp (List Account)) : List Account :=
  match accountsData.success, accountsData.result with
  | true, some accs => accs
  | _, _ => []

/-- `getUserAndAccounts`: resolve the `/user` and `/accounts` responses to
an identity; throws when neither a user nor any account resolves. -/
def getUserAndAccounts (userData : ApiResp User)
    (accountsData : ApiResp (List Account)) :
    Except String (Option User × List Account) :=
  let accounts := parsedAccounts accountsData
  match userData.success, userData.result with
  | true, some u => .ok (some u, accounts)
  | _, _ =>
    if accounts.length > 0 then .ok (none, accounts)
    else .error ("Failed to fetch user or accounts")

/-- Observable outcome of the token-mode handlers: `notApiToken` is the
JavaScript `null` return, the other constructors are the produced
responses. -/
inductive TokenModeOutcome where
  | notApiToken
  | unauthorized (message : String)
  | badRequest (message : String)
  | mcpResponse (token : String) (accountId : Option String) (props : AuthProps)
deriving DecidableEq, Repr

/-- `handleApiTokenRequest`, with the upstream identity responses passed
in as parameters.  A falsy extracted token (`null` or the empty string,
JavaScript `if (!token)`) is rejected 401 before any lookup; thrown
upstream errors are caught and become 401s. -/
def handleApiTokenRequest (request : HttpRequest) (userData : ApiResp User)
    (accountsData : ApiResp (List Account)) : TokenModeOutcome :=
  if !(isDirectApiToken request) then .notApiToken
  else
    match extractBearerToken request with
    | none => .unauthorized ("Authorization header required")
    | some token =>
      if token == "" then .unauthorized ("Authorization header required")
      else
        match getUserAndAccounts userData accountsData with
        | .error msg => .unauthorized msg
        | .ok (user, accounts) =>
          match user with
          | none =>
            match accounts with
            | [] => .unauthorized ("Invalid token")
            | a :: b :: _ =>
              let _ := a; let _ := b
              .badRequest ("Token has access to multiple accounts - use account_id parameter")
            | [a] =>
              match buildAuthProps token none (some [a]) with
              | .error msg => .unauthorized msg
              | .ok props => .mcpResponse token (some a.id) props
          | some u =>
            match buildAuthProps token (some u) (some accounts) with
            | .error msg => .unauthorized msg
            | .ok props => .mcpResponse token none props

/-- `handleGlobalApiKeyRequest`: `none` when the request does not carry the
Global-API-Key headers; otherwise verify via `getUserAndAccounts` using the
header pair as auth and return either a 401 or an MCP response whose token
argument is the empty string. -/
def handleGlobalApiKeyRequest (request : HttpRequest) (userData : ApiResp User)
    (accountsData : ApiResp (List Account)) : Option TokenModeOutcome :=
  if !(isGlobalApiKey request) then none
  else
    let email := (request.xAuthEmail).getD ""
    let apiKey := (request.xAuthKey).getD ""
    some <|
      match getUserAndAccounts userData accountsData with
      | .error msg => .unauthorized msg
      | .ok (user, accounts) =>
        match user with
        | none => .unauthorized ("Failed to verify Global API Key")
        | some u => .mcpResponse "" none (.global_api_key email apiKey u accounts)

/-! ## src/index.ts: the dispatcher and the outbound gate -/

/-- Which subsystem `default.fetch` hands the request to: the direct
API-token handler's response, or the OAuth provider. -/
inductive DispatchOutcome where
  | apiToken (outcome : TokenModeOutcome)
  | oauth
deriving DecidableEq, Repr

/-- `default.fetch` (src/index.ts): check `isDirectApiToken` first; if the
token handler produced a response return it, otherwise fall through to the
OAuth provider.  No other classification happens before those two. -/
def defaultFetch (request : HttpRequest) (userData : ApiResp User)
    (accountsData : ApiResp (List Account)) : DispatchOutcome :=
  if isDirectApiToken request then
    match handleApiTokenRequest request userData accountsData with
    | .notApiToken => .oauth
    | outcome => .apiToken outcome
  else .oauth

/-- The configured allow-list for the process-wide outbound fetch gate. -/
def ALLOWED_HOSTNAMES : List String := ["api.cloudflare.com"]

/-- An outbound request as seen by the gate: its URL's hostname plus an
opaque payload that forwarding must not alter. -/
structure OutboundRequest where
  hostname : String
  payload : String
deriving DecidableEq, Repr

/-- Result of the gate: a synthesized 403 response, or the request
forwarded to the real `fetch`. -/
inductive OutboundResult where
  | forbidden (status : Nat) (body : String)
  | forwarded (request : OutboundRequest)
deriving DecidableEq, Repr

/-- `GlobalOutbound.fetch`: reject any hostname outside the allow-list
with a 403, otherwise forward the request unchanged. -/
def GlobalOutbound.fetch (request : OutboundRequest) : OutboundResult :=
  if !(ALLOWED_HOSTNAMES.contains request.hostname) then
    .forbidden 403 ("Forbidden: requests to " ++ request.hostname ++ " are not allowed")
  else .forwarded request

/-! ## JSON values

One JSON type serves the spec processor, the executor's response
normalization and the stored OAuth state.  `undefined` is JavaScript's
`undefined` (distinct from JSON `null`), which several code paths test
for explicitly. -/

/-- JSON values, plus JavaScript `undefined`.  Arrays and objects are
encoded with explicit cons cells (`arrCons`, `objCons`) so that the type
is not nested and equality stays decidable. -/
inductive Json where
  | null
  | undefined
  | bool (b : Bool)
  | num (n : Int)
  | str (s : String)
  | arrNil
  | arrCons (head tail : Json)
  | objNil
  | objCons (key : String) (value : Json) (tail : Json)
deriving DecidableEq, Repr

/-- `Array.isArray`. -/
def Json.isArray : Json → Bool
  | .arrNil => true
  | .arrCons _ _ => true
  | _ => false

/-- Whether the value is an object. -/
def Json.isObject : Json → Bool
  | .objNil => true
  | .objCons _ _ _ => true
  | _ => false

/-- Build an array value from a list. -/
def jarr : List Json → Json
  | [] => .arrNil
  | x :: xs => .arrCons x (jarr xs)

/-- Build an object value from key/value pairs. -/
def jobj : List (String × Json) → Json
  | [] => .objNil
  | (k, v) :: t => .objCons k v (jobj t)

/-- The elements of an array value. -/
def Json.arrElems : Json → List Json
  | .arrCons x t => x :: t.arrElems
  | _ => []

/-- Property lookup on an object; `none` when the value is not an object
or lacks the key (first occurrence wins, as after `JSON.parse`). -/
def jsonGet (j : Json) (k : String) : Option Json :=
  match j with
  | .objCons key v t => if key == k then some v else jsonGet t k
  | _ => none

/-- JavaScript property access `j[k]`: missing keys give `undefined`,
access on `null`/`undefined` throws a TypeError. -/
def jsAccess (j : Json) (k : String) : Except String Json :=
  match j with
  | .null => .error ("TypeError: Cannot read properties of null (reading " ++ k ++ ")")
  | .undefined => .error ("TypeError: Cannot read properties of undefined (reading " ++ k ++ ")")
  | j => if j.isObject then .ok ((jsonGet j k).getD .undefined) else .ok .undefined

/-- JavaScript truthiness of a value: `undefined`, `null`, `false`, `0`
and `""` are falsy; every object and array is truthy. -/
def jsTruthy : Json → Bool
  | .null => false
  | .undefined => false
  | .bool b => b
  | .num n => n != 0
  | .str s => s != ""
  | _ => true

/-! ## Scope registry (src/auth/scopes.ts) -/

/-- Scopes required for basic functionality - always included. -/
def REQUIRED_SCOPES : List String := ["user:read", "offline_access", "account:read"]

/-- Maximum number of scopes in a single OAuth authorization. -/
def MAX_SCOPES : Nat := 76

/-- A named bundle of scopes. -/
structure ScopeTemplate where
  name : String
  description : String
  scopes : List String
deriving DecidableEq, Repr

/-- The `read-only` template. -/
def readOnlyTemplate : ScopeTemplate where
  name := "Read Only (Recommended)"
  description := "View resources without making changes. Safest option for exploration."
  scopes := REQUIRED_SCOPES ++
    ["workers:read", "workers_builds:read", "workers_observability:read",
     "pages:read", "ai:read", "access:read", "dns_records:read",
     "dns_settings:read", "dns_analytics:read", "zone:read", "logpush:read"]

/-- The `workers-full` template. -/
def workersFullTemplate : ScopeTemplate where
  name := "Workers Full Access"
  description := "Full access to Workers, KV, D1, R2, and related services with observability."
  scopes := REQUIRED_SCOPES ++
    ["workers:read", "workers:write", "workers_scripts:write", "workers_kv:write",
     "workers_routes:write", "workers_tail:read", "workers_builds:read",
     "workers_builds:write", "workers_observability:read", "workers_observability:write",
     "workers_observability_telemetry:write", "logpush:read", "logpush:write",
     "d1:write", "r2_catalog:write", "queues:write", "pages:read", "pages:write"]

/-- The `dns-full` template. -/
def dnsFullTemplate : ScopeTemplate where
  name := "DNS Full Access"
  description := "Full access to DNS records and zone settings."
  scopes := REQUIRED_SCOPES ++
    ["zone:read", "dns_records:read", "dns_records:edit", "dns_settings:read",
     "dns_analytics:read"]

/-- The template catalog. -/
def SCOPE_TEMPLATES : List (String × ScopeTemplate) :=
  [("read-only", readOnlyTemplate), ("workers-full", workersFullTemplate),
   ("dns-full", dnsFullTemplate)]

/-- The default template name. -/
def DEFAULT_TEMPLATE : String := "read-only"

/-! ## Cookie handling (src/auth/workers-oauth-utils.ts) -/

/-- Cookie holding the HMAC-signed approved-clients record. -/
def APPROVED_CLIENTS_COOKIE : String := "__Host-MCP_APPROVED_CLIENTS"

/-- Cookie holding the CSRF token. -/
def CSRF_COOKIE : String := "__Host-CSRF_TOKEN"

/-- Cookie binding the pending state token to the browser session. -/
def STATE_COOKIE : String := "__Host-CONSENTED_STATE"

/-- Extract a cookie value: split the header on `;`, trim, take the first
cookie starting with `name=`, return everything after the `=`. -/
def cookieValue (cookieHeader : Option String) (name : String) : Option String :=
  let header := cookieHeader.getD ""
  let cookies := (strSplitOn header ';').map strTrim
  match cookies.find? (fun c => strStartsWith c (name ++ "=")) with
  | none => none
  | some c => some (strDropChars c (name.length + 1))

/-! ## Consent-form parsing (src/auth/workers-oauth-utils.ts :
`parseRedirectApproval`)

`FormData` values are strings or files; `formData.get` returns the first
entry, `formData.getAll` all of them.  The base64+JSON decoding of the
`state` field and the signature verification of the approved-clients
cookie are serialization/crypto boundaries, passed in as functions
(`none` models a decode/verification failure, which the code treats as a
throw resp. an absent record). -/

/-- One `FormData` value. -/
inductive FormValue where
  | str (s : String)
  | file
deriving DecidableEq, Repr

/-- The slice of the approval-form POST the parser reads. -/
structure ApprovalRequest where
  method : String
  form : List (String × FormValue)
  cookieHeader : Option String
deriving Repr

/-- `formData.get`. -/
def formGet (form : List (String × FormValue)) (k : String) : Option FormValue :=
  (form.find? (fun kv => kv.1 == k)).map (fun kv => kv.2)

/-- `formData.getAll`. -/
def formGetAll (form : List (String × FormValue)) (k : String) : List FormValue :=
  (form.filter (fun kv => kv.1 == k)).map (fun kv => kv.2)

/-- The pending authorization request, as far as the claims are
concerned: the client id and the scope list; other fields ride along
unchanged. -/
structure AuthRequest where
  clientId : String
  scope : List String
deriving DecidableEq, Repr

/-- The decoded `state` form field. -/
structure ApprovalState where
  oauthReqInfo : Option AuthRequest
deriving DecidableEq, Repr

/-- Result of `parseRedirectApproval`: `approvedClients` is the list the
new signed cookie records. -/
structure ParsedApprovalResult where
  state : ApprovalState
  approvedClients : List String
  selectedScopes : Option (List String)
  selectedTemplate : Option String
deriving DecidableEq, Repr

/-- `parseRedirectApproval`: CSRF validation first (form token must be a
non-empty string equal to the CSRF cookie), then state decoding and
validation, then scope/template extraction and the approved-clients
union.  Every `throw` in the source is an `Except.error` here. -/
def parseRedirectApproval (request : ApprovalRequest)
    (decodeState : String → Option ApprovalState)
    (verifyApproved : String → Option (List String)) :
    Except String ParsedApprovalResult :=
  if request.method != "POST" then .error ("Invalid request method")
  else
    match formGet request.form ("csrf_token") with
    | none => .error ("Missing CSRF token")
    | some .file => .error ("Missing CSRF token")
    | some (.str tokenFromForm) =>
      if tokenFromForm == "" then .error ("Missing CSRF token")
      else
        match cookieValue request.cookieHeader CSRF_COOKIE with
        | none => .error ("CSRF token mismatch")
        | some tokenFromCookie =>
          if tokenFromCookie == "" then .error ("CSRF token mismatch")
          else if tokenFromForm != tokenFromCookie then .error ("CSRF token mismatch")
          else
            match formGet request.form ("state") with
            | none => .error ("Missing state")
            | some .file => .error ("Missing state")
            | some (.str encodedState) =>
              if encodedState == "" then .error ("Missing state")
              else
                match decodeState encodedState with
                | none => .error ("Invalid state encoding")
                | some state =>
                  match state.oauthReqInfo with
                  | none => .error ("Invalid state data")
                  | some info =>
                    if info.clientId == "" then .error ("Invalid state data")
                    else
                      let selectedScopes := (formGetAll request.form ("scopes")).filterMap
                        (fun v => match v with | .str s => some s | .file => none)
                      let selectedTemplate :=
                        match formGet request.form ("scope_template") with
                        | some (.str s) => some s
                        | _ => none
                      let existing :=
                        (match cookieValue request.cookieHeader APPROVED_CLIENTS_COOKIE with
                         | none => none
                         | some v => verifyApproved v).getD []
                      let updated :=
                        if existing.contains info.clientId then existing
                        else existing ++ [info.clientId]
                      .ok { state := state, approvedClients := updated,
                            selectedScopes :=
                              if selectedScopes.length > 0 then some selectedScopes else none,
                            selectedTemplate := selectedTemplate }

/-! ## POST /authorize (src/auth/oauth-handler.ts) -/

/-- What the consent POST produces on success: the authorization request
persisted into the pending state (scope overwritten with the selection)
and the scope list put in the upstream redirect (space-joined in the
authorization URL). -/
structure PostAuthorizeOk where
  storedOauthReqInfo : AuthRequest
  redirectScopes : List String
  redirectScopeParam : String
deriving DecidableEq, Repr

/-- The scope selection of the consent POST: checkboxes are the source of
truth, capped at `MAX_SCOPES`; an absent or empty selection yields the
empty list. -/
def postAuthorizeScopes (selectedScopes : Option (List String)) : List String :=
  (match selectedScopes with
   | some l => if l.length > 0 then l else []
   | none => []).take MAX_SCOPES

/-- The `POST /authorize` handler up to the upstream redirect (PKCE and
the random state token do not affect the scope list and are omitted). -/
def postAuthorize (request : ApprovalRequest)
    (decodeState : String → Option ApprovalState)
    (verifyApproved : String → Option (List String)) :
    Except String PostAuthorizeOk :=
  match parseRedirectApproval request decodeState verifyApproved with
  | .error e => .error e
  | .ok parsed =>
    match parsed.state.oauthReqInfo with
    | none => .error ("Missing OAuth request info")
    | some oauthReqInfo =>
      let scopesToRequest := postAuthorizeScopes parsed.selectedScopes
      .ok { storedOauthReqInfo := { oauthReqInfo with scope := scopesToRequest },
            redirectScopes := scopesToRequest,
            redirectScopeParam := String.intercalate (" ") scopesToRequest }

/-! ## Pending authorization state (src/auth/workers-oauth-utils.ts :
`createOAuthState` / `validateOAuthState`)

The KV namespace is an association list threaded through each operation;
stored values are JSON.  SHA-256 is a function parameter (the code only
compares its hex output against the session cookie). -/

/-- The external key-value store. -/
abbrev KVStore := List (String × Json)

/-- `kv.get`. -/
def kvGet (kv : KVStore) (k : String) : Option Json :=
  (kv.find? (fun e => e.1 == k)).map (fun e => e.2)

/-- `kv.put` (overwrites). -/
def kvPut (kv : KVStore) (k : String) (v : Json) : KVStore :=
  (k, v) :: kv.filter (fun e => e.1 != k)

/-- `kv.delete`. -/
def kvDelete (kv : KVStore) (k : String) : KVStore :=
  kv.filter (fun e => e.1 != k)

/-- JSON encoding of an authorization request, as stored in KV. -/
def encodeAuthRequest (r : AuthRequest) : Json :=
  jobj [("clientId", .str r.clientId), ("scope", jarr (r.scope.map .str))]

/-- `createOAuthState`: persist `{oauthReqInfo, codeVerifier}` under
`oauth:state:<token>` (the token is random in the source; here it is a
parameter). -/
def createOAuthState (oauthReqInfo : AuthRequest) (kv : KVStore)
    (codeVerifier stateToken : String) : KVStore :=
  kvPut kv ("oauth:state:" ++ stateToken)
    (jobj [("oauthReqInfo", encodeAuthRequest oauthReqInfo),
           ("codeVerifier", .str codeVerifier)])

/-- `StoredOAuthStateSchema.safeParse`: an object with an `oauthReqInfo`
object carrying a string `clientId` (optional `scope` array of strings,
optional string `state`, `responseType`, `redirectUri`; other fields pass
through) and a non-empty string `codeVerifier`. -/
def parseStoredOAuthState (j : Json) : Option (Json × String) :=
  match jsonGet j "oauthReqInfo" with
  | some info =>
    if !info.isObject then none
    else
      let strOk : Option Json → Bool := fun v =>
        match v with
        | none => true
        | some (.str _) => true
        | some _ => false
      let scopeOk :=
        match jsonGet info "scope" with
        | none => true
        | some v =>
          if v.isArray then
            v.arrElems.all (fun x => match x with | .str _ => true | _ => false)
          else false
      match jsonGet info "clientId" with
      | some (.str _) =>
        if scopeOk && strOk (jsonGet info "state") && strOk (jsonGet info "responseType")
            && strOk (jsonGet info "redirectUri") then
          match jsonGet j "codeVerifier" with
          | some (.str cv) => if 1 ≤ cv.length then some (info, cv) else none
          | _ => none
        else none
      | _ => none
  | _ => none

/-- A structured OAuth error (machine-readable code plus description). -/
structure OAuthErrorMsg where
  code : String
  description : String
deriving DecidableEq, Repr

/-- The callback's `state` query parameter after the
`JSON.parse(atob(...))` step: absent, undecodable, or decoded with an
optional `state` field (the correlation token). -/
inductive StateParamShape where
  | missing
  | malformed
  | decoded (stateToken : Option String)
deriving DecidableEq, Repr

/-- The slice of the callback request `validateOAuthState` reads. -/
structure CallbackRequest where
  stateParam : StateParamShape
  cookieHeader : Option String
deriving Repr

/-- Successful validation result. -/
structure ValidatedState where
  oauthReqInfo : Json
  codeVerifier : String
deriving DecidableEq, Repr

/-- `validateOAuthState`: decode the correlation token, look it up in KV,
check the session-binding cookie hash, schema-validate the stored blob,
and only then delete the entry (single use).  The returned store is the
store after the call; every error path leaves it unchanged because the
delete is the last step before returning. -/
def validateOAuthState (hashHex : String → String) (request : CallbackRequest)
    (kv : KVStore) : Except OAuthErrorMsg ValidatedState × KVStore :=
  match request.stateParam with
  | .missing => (.error ⟨"invalid_request", "Missing state parameter"⟩, kv)
  | .malformed => (.error ⟨"invalid_request", "Failed to decode state"⟩, kv)
  | .decoded tokenOpt =>
    match tokenOpt with
    | none => (.error ⟨"invalid_request", "Failed to decode state"⟩, kv)
    | some stateToken =>
      if stateToken == "" then (.error ⟨"invalid_request", "Failed to decode state"⟩, kv)
      else
        match kvGet kv ("oauth:state:" ++ stateToken) with
        | none => (.error ⟨"invalid_request", "Invalid or expired state"⟩, kv)
        | some storedData =>
          match cookieValue request.cookieHeader STATE_COOKIE with
          | none =>
            (.error ⟨"invalid_request", "Missing session binding - restart authorization"⟩, kv)
          | some stateHash =>
            if stateHash == "" then
              (.error ⟨"invalid_request", "Missing session binding - restart authorization"⟩, kv)
            else if stateHash != hashHex stateToken then
              (.error ⟨"invalid_request", "State mismatch - possible CSRF attack"⟩, kv)
            else
              match parseStoredOAuthState storedData with
              | none => (.error ⟨"server_error", "Invalid stored state data"⟩, kv)
              | some (info, cv) =>
                (.ok ⟨info, cv⟩, kvDelete kv ("oauth:state:" ++ stateToken))

/-! ## The `request()` shim of the code executor (src/executor.ts)

The JSON-response handling: detect GraphQL endpoints structurally and
normalize, otherwise unwrap the conventional REST envelope.  `data` is
the parsed JSON body; a thrown `Error` is an `Except.error`. -/

/-- JavaScript string coercion (`String(x)` / `"" + x`). -/
def jsToString : Json → String
  | .null => "null"
  | .undefined => "undefined"
  | .bool b => if b then "true" else "false"
  | .num n => toString n
  | .str s => s
  | .arrNil => ""
  | .arrCons h t =>
    (match h with
     | .null => ""
     | .undefined => ""
     | h' => jsToString h') ++
    (match t with
     | .arrCons _ _ => "," ++ jsToString t
     | _ => "")
  | .objNil => "[object Object]"
  | .objCons _ _ _ => "[object Object]"

/-- `Array.prototype.join(sep)`: `null`/`undefined` elements become empty
strings. -/
def jsJoin (sep : String) (j : Json) : String :=
  String.intercalate sep
    ((Json.arrElems j).map fun x =>
      match x with
      | .null => ""
      | .undefined => ""
      | x' => jsToString x')

/-- `path.split('?')[0].replace(/\/+$/, '')`. -/
def cleanPath (path : String) : String :=
  let noQuery := (strSplitOn path '?').headD path
  ⟨(noQuery.data.reverse.dropWhile (fun c => c = '/')).reverse⟩

/-- GraphQL endpoint detection: the cleaned path equals `/graphql` or ends
with `/graphql`. -/
def isGraphQLEndpoint (path : String) : Bool :=
  cleanPath path == "/graphql" || strEndsWith (cleanPath path) ("/graphql")

/-- One normalized `{code, message}` entry (`code` is whatever JSON value
`extensions.code` held, defaulted to `0`). -/
structure ErrorEntry where
  code : Json
  message : String
deriving DecidableEq, Repr

/-- The normalized envelope returned for a GraphQL response. -/
structure GraphQLEnvelope where
  success : Bool
  status : Nat
  result : Json
  errors : List ErrorEntry
  messages : List ErrorEntry
deriving DecidableEq, Repr

/-- Map one GraphQL error object:
`code = e.extensions?.code || 0`, `message = e.message` plus an
` (at a.b.c)` suffix when `e.path` is truthy. -/
def mapGraphQLError (e : Json) : Except String ErrorEntry := do
  let ext ← jsAccess e ("extensions")
  let codeVal ←
    match ext with
    | .null => pure Json.undefined
    | .undefined => pure Json.undefined
    | ext' => jsAccess ext' ("code")
  let code := if jsTruthy codeVal then codeVal else Json.num 0
  let msg ← jsAccess e ("message")
  let pathVal ← jsAccess e ("path")
  if jsTruthy pathVal then
    if pathVal.isArray then
      .ok ⟨code, jsToString msg ++ " (at " ++ jsJoin (".") pathVal ++ ")"⟩
    else .error ("TypeError: e.path.join is not a function")
  else .ok ⟨code, jsToString msg⟩

/-- The GraphQL branch of the shim: read `data.errors` defensively (not an
array means no errors), throw on errors without any `data`, otherwise
return the normalized envelope — partial data is preserved and a single
synthetic `messages` entry summarizes the error count. -/
def graphqlNormalize (status : Nat) (data : Json) : Except String GraphQLEnvelope := do
  let errsField ← jsAccess data ("errors")
  let graphqlErrors := if errsField.isArray then errsField.arrElems else []
  let dataField ← jsAccess data ("data")
  let hasData := dataField != Json.null && dataField != Json.undefined
  if graphqlErrors.length > 0 && !hasData then
    let msgs ← graphqlErrors.mapM (fun e => jsAccess e ("message"))
    .error ("GraphQL error: " ++ String.intercalate (", ")
      (msgs.map fun m =>
        match m with
        | .null => ""
        | .undefined => ""
        | m' => jsToString m'))
  else
    let errors ← graphqlErrors.mapM mapGraphQLError
    .ok { success := graphqlErrors.isEmpty, status := status, result := dataField,
          errors := errors,
          messages :=
            if graphqlErrors.length > 0 then
              [⟨Json.num 0, "Partial response: " ++ toString graphqlErrors.length ++ " error(s)"⟩]
            else [] }

/-- Object spread `\x7b...data, status\x7d`: overwrite in place or append. -/
def jsonSetField : Json → String → Json → Json
  | .objCons key v t, k, nv =>
    if key == k then .objCons key nv t else .objCons key v (jsonSetField t k nv)
  | _, k, nv => .objCons k nv .objNil

/-- What the shim hands back for a JSON response. -/
inductive ShimOutcome where
  | graphql (env : GraphQLEnvelope)
  | rest (body : Json)
deriving DecidableEq, Repr

/-- The JSON-response handling of `request()`: branch on the structural
GraphQL detection; the REST branch throws on `success:false` with the
concatenated `code: message` pairs and otherwise returns the envelope with
the HTTP status spliced in. -/
def jsonResponseHandler (path : String) (status : Nat) (data : Json) :
    Except String ShimOutcome :=
  if isGraphQLEndpoint path then
    (graphqlNormalize status data).map .graphql
  else do
    let successField ← jsAccess data ("success")
    if !(jsTruthy successField) then
      let errsField ← jsAccess data ("errors")
      if errsField.isArray then
        let msgs ← errsField.arrElems.mapM (fun e => do
          let c ← jsAccess e ("code")
          let m ← jsAccess e ("message")
          pure (jsToString c ++ ": " ++ jsToString m))
        .error ("Cloudflare API error: " ++ String.intercalate (", ") msgs)
      else .error ("TypeError: data.errors.map is not a function")
    else .ok (.rest (jsonSetField data ("status") (.num (status : Int))))

/-! ## Response truncator

Modelled from the spec: the truncate module (`truncateResponse`) is not
present in the repository snapshot — only its unit tests are.  Modelled
from spec.md §4.4 and the tests: the character limit is a 6000-token
budget at ~4 characters per token (24000 characters); content at or under
the limit is returned verbatim (strings as-is, other values
JSON-stringified with 2-space indentation); content over the limit is cut
at the limit and a marker block reporting the approximate token count and
the configured limit is appended. -/

/-- Token budget (modelled from the spec). -/
def MAX_TOKENS : Nat := 6000

/-- Characters per token (modelled from the spec). -/
def CHARS_PER_TOKEN : Nat := 4

/-- Character limit (modelled from the spec). -/
def MAX_CHARS : Nat := MAX_TOKENS * CHARS_PER_TOKEN

/-- `n` spaces. -/
def spaces (n : Nat) : String :=
  ⟨List.replicate n ' '⟩

/-- JSON string escaping for the serializer. -/
def escapeJsonChar (c : Char) : String :=
  if c = '"' then "\\\""
  else if c = '\\' then "\\\\"
  else if c = '\n' then "\\n"
  else if c = '\r' then "\\r"
  else if c = '\t' then "\\t"
  else ⟨[c]⟩

/-- Escape every character of a string. -/
def escapeJsonString (s : String) : String :=
  String.join (s.data.map escapeJsonChar)

mutual

/-- `JSON.stringify(v, null, 2)` at the given indentation (modelled from
the spec; `undefined` inside containers serializes as `null`). -/
def stringifyAux (ind : Nat) : Json → String
  | .null => "null"
  | .undefined => "null"
  | .bool b => if b then "true" else "false"
  | .num n => toString n
  | .str s => "\"" ++ escapeJsonString s ++ "\""
  | .arrNil => "[]"
  | .arrCons h t =>
    "[\n" ++ spaces (ind + 2) ++ stringifyAux (ind + 2) h ++
      stringifyItemsTail (ind + 2) t ++ spaces ind ++ "]"
  | .objNil => "\x7b\x7d"
  | .objCons k v t =>
    "\x7b\n" ++ spaces (ind + 2) ++ "\"" ++ escapeJsonString k ++ "\": " ++
      stringifyAux (ind + 2) v ++ stringifyFieldsTail (ind + 2) t ++ spaces ind ++ "\x7d"

/-- Remaining array items, each on its own line. -/
def stringifyItemsTail (ind : Nat) : Json → String
  | .arrCons h t =>
    ",\n" ++ spaces ind ++ stringifyAux ind h ++ stringifyItemsTail ind t
  | _ => "\n"

/-- Remaining object fields, each on its own line. -/
def stringifyFieldsTail (ind : Nat) : Json → String
  | .objCons k v t =>
    ",\n" ++ spaces ind ++ "\"" ++ escapeJsonString k ++ "\": " ++
      stringifyAux ind v ++ stringifyFieldsTail ind t
  | _ => "\n"

end

/-- `JSON.stringify(value, null, 2)` (modelled from the spec). -/
def jsonStringifyPretty (v : Json) : String :=
  stringifyAux 0 v

/-- Digit grouping (`6000` renders as `6,000`); input is the reversed
digit list. -/
def commaGroupAux : List Char → List Char
  | a :: b :: c :: d :: rest => a :: b :: c :: ',' :: commaGroupAux (d :: rest)
  | l => l

/-- Format a number with thousands separators. -/
def formatWithCommas (n : Nat) : String :=
  ⟨(commaGroupAux (Nat.toDigits 10 n).reverse).reverse⟩

/-- `s.slice(0, n)`. -/
def strTake (s : String) (n : Nat) : String :=
  ⟨s.data.take n⟩

/-- The truncation marker block (modelled from the spec and the unit
tests: it contains `--- TRUNCATED ---`, the approximate token count with
the configured limit, and a hint to narrow the query). -/
def truncMessage (chars : Nat) : String :=
  "\n\n--- TRUNCATED ---\nResponse was ~" ++ formatWithCommas (chars / CHARS_PER_TOKEN) ++
    " tokens (limit: " ++ formatWithCommas MAX_TOKENS ++
    "). Use more specific queries to reduce response size."

/-- `truncateResponse` (modelled from the spec): strings pass through,
other values are pretty-printed; content within the limit (closed at the
top) is returned unmodified, content over it is cut at the limit with the
marker appended. -/
def truncateResponse (value : Json) : String :=
  let content :=
    match value with
    | .str s => s
    | v => jsonStringifyPretty v
  if content.length ≤ MAX_CHARS then content
  else strTake content MAX_CHARS ++ truncMessage content.length

/-! ## The `$ref` resolver (src/spec-processor.ts : `resolveRefs`)

The JavaScript `seen` set is mutated in place and shared by the whole
traversal (including sibling branches), so it is threaded explicitly
here.  The recursion of the source is not structural (a `$ref` jumps to
an arbitrary subtree of the spec), so the embedding takes a fuel
parameter; `none` means the fuel ran out, and every claim is settled at a
fuel large enough for the inputs involved. -/

/-- Remove the first occurrence of `pat` (JavaScript
`s.replace('#/', '')`). -/
def removeFirstOcc (pat : List Char) : List Char → List Char
  | [] => []
  | x :: xs =>
    if pat.isPrefixOf (x :: xs) then (x :: xs).drop pat.length
    else x :: removeFirstOcc pat xs

/-- A canonical array index (digits, no leading zero), as JavaScript
property lookup on arrays requires. -/
def parseIndex (s : String) : Option Nat :=
  match s.data with
  | [] => none
  | ds =>
    if ds.all Char.isDigit && (ds = ['0'] || ds.head? != some '0') then
      some (ds.foldl (fun acc c => acc * 10 + (c.toNat - '0'.toNat)) 0)
    else none

/-- One step of `resolved?.[part]`: key lookup on objects, canonical index
lookup on arrays, `undefined` otherwise. -/
def jsIndex (j : Json) (part : String) : Json :=
  match j with
  | .objCons _ _ _ => (jsonGet j part).getD .undefined
  | .arrNil => .undefined
  | .arrCons h t =>
    (match parseIndex part with
     | some n => ((Json.arrCons h t).arrElems.get? n).getD .undefined
     | none => .undefined)
  | _ => .undefined

/-- `ref.replace('#/', '').split('/')` walked over the spec. -/
def refTarget (spec : Json) (ref : String) : Json :=
  let stripped : String := ⟨removeFirstOcc ("#/".data) ref.data⟩
  (strSplitOn stripped '/').foldl jsIndex spec

/-- An object that is just a `$ref`. -/
def refNode (r : String) : Json :=
  jobj [("$ref", .str r)]

mutual

/-- `resolveRefs(obj, spec, seen)`: primitives pass through, arrays and
objects are rebuilt with the shared `seen` threaded left to right, and a
string-valued `$ref` either resolves (recording the ref in `seen`) or, on
a second encounter, becomes the `\x7b $circular: ref \x7d` marker. -/
def resolveRefs (fuel : Nat) (obj spec : Json) (seen : List String) :
    Option (Json × List String) :=
  match fuel with
  | 0 => none
  | fuel + 1 =>
    match obj with
    | .arrCons h t => resolveArr fuel (.arrCons h t) spec seen
    | .arrNil => some (.arrNil, seen)
    | .objCons k v t =>
      match jsonGet (.objCons k v t) ("$ref") with
      | some (.str ref) =>
        if seen.contains ref then some (jobj [("$circular", .str ref)], seen)
        else resolveRefs fuel (refTarget spec ref) spec (ref :: seen)
      | _ => resolveObj fuel (.objCons k v t) spec seen
    | .objNil => some (.objNil, seen)
    | prim => some (prim, seen)

/-- `obj.map((item) => resolveRefs(item, spec, seen))` with the shared
mutable set threaded. -/
def resolveArr (fuel : Nat) (obj spec : Json) (seen : List String) :
    Option (Json × List String) :=
  match fuel with
  | 0 => none
  | fuel + 1 =>
    match obj with
    | .arrCons h t => do
      let (h', seen1) ← resolveRefs fuel h spec seen
      let (t', seen2) ← resolveArr fuel t spec seen1
      some (Json.arrCons h' t', seen2)
    | other => some (other, seen)

/-- The `Object.entries` loop with the shared mutable set threaded. -/
def resolveObj (fuel : Nat) (obj spec : Json) (seen : List String) :
    Option (Json × List String) :=
  match fuel with
  | 0 => none
  | fuel + 1 =>
    match obj with
    | .objCons k v t => do
      let (v', seen1) ← resolveRefs fuel v spec seen
      let (t', seen2) ← resolveObj fuel t spec seen1
      some (Json.objCons k v' t', seen2)
    | other => some (other, seen)

end

mutual

/-- The claim's reading of `resolveRefs`, written from the spec's words
for comparison: resolution tracks only the refs on the current path (each
branch gets its own `seen`), so a `$ref` is circular exactly when it
repeats on its own chain. -/
def resolveRefsClaim (fuel : Nat) (obj spec : Json) (seen : List String) :
    Option Json :=
  match fuel with
  | 0 => none
  | fuel + 1 =>
    match obj with
    | .arrCons h t => resolveArrClaim fuel (.arrCons h t) spec seen
    | .arrNil => some .arrNil
    | .objCons k v t =>
      match jsonGet (.objCons k v t) ("$ref") with
      | some (.str ref) =>
        if seen.contains ref then some (jobj [("$circular", .str ref)])
        else resolveRefsClaim fuel (refTarget spec ref) spec (ref :: seen)
      | _ => resolveObjClaim fuel (.objCons k v t) spec seen
    | .objNil => some .objNil
    | prim => some prim

/-- Array elements, each resolved with the same path-local `seen`. -/
def resolveArrClaim (fuel : Nat) (obj spec : Json) (seen : List String) :
    Option Json :=
  match fuel with
  | 0 => none
  | fuel + 1 =>
    match obj with
    | .arrCons h t => do
      let h' ← resolveRefsClaim fuel h spec seen
      let t' ← resolveArrClaim fuel t spec seen
      some (Json.arrCons h' t')
    | other => some other

/-- Object fields, each resolved with the same path-local `seen`. -/
def resolveObjClaim (fuel : Nat) (obj spec : Json) (seen : List String) :
    Option Json :=
  match fuel with
  | 0 => none
  | fuel + 1 =>
    match obj with
    | .objCons k v t => do
      let v' ← resolveRefsClaim fuel v spec seen
      let t' ← resolveObjClaim fuel t spec seen
      some (Json.objCons k v' t')
    | other => some other

end

/-- Whether a `$circular` marker occurs anywhere in the value. -/
def Json.hasCircular : Json → Bool
  | .arrCons h t => h.hasCircular || t.hasCircular
  | .objCons k v t => k == "$circular" || v.hasCircular || t.hasCircular
  | _ => false

/-- Whether the value contains no `$ref` key at all. -/
def Json.refFree : Json → Bool
  | .arrCons h t => h.refFree && t.refFree
  | .objCons k v t => k != "$ref" && v.refFree && t.refFree
  | _ => true

/-- Structural size, used to bound the fuel the resolver needs. -/
def Json.size : Json → Nat
  | .arrCons h t => 1 + h.size + t.size
  | .objCons _ v t => 1 + v.size + t.size
  | _ => 1


/-- Decidable equality for `Except` results (used to settle concrete
outcomes by evaluation). -/
instance (ε α : Type) [DecidableEq ε] [DecidableEq α] : DecidableEq (Except ε α) := fun a b =>
  match a, b with
  | .ok x, .ok y =>
    if h : x = y then isTrue (by rw [h]) else isFalse (fun hc => h (by cases hc; rfl))
  | .error x, .error y =>
    if h : x = y then isTrue (by rw [h]) else isFalse (fun hc => h (by cases hc; rfl))
  | .ok _, .error _ => isFalse (fun hc => Except.noConfusion hc)
  | .error _, .ok _ => isFalse (fun hc => Except.noConfusion hc)

/-! # Theorems -/

/-! ## C1: the outbound allow-list gate -/

/-- Claim C1: for every outbound request through the process-wide fetch
gate, a hostname outside the allow-list (exactly
`["api.cloudflare.com"]`) yields a 403 response and the request is not
forwarded; a hostname in the allow-list is forwarded unchanged. -/
theorem globalOutbound_allowlist_gate (req : OutboundRequest) :
    (req.hostname ∉ ALLOWED_HOSTNAMES →
      GlobalOutbound.fetch req =
        .forbidden 403 ("Forbidden: requests to " ++ req.hostname ++ " are not allowed") ∧
      ∀ r, GlobalOutbound.fetch req ≠ .forwarded r) ∧
    (req.hostname ∈ ALLOWED_HOSTNAMES → GlobalOutbound.fetch req = .forwarded req) := by
  constructor
  · intro h
    constructor
    · simp [GlobalOutbound.fetch, h]
    · intro r
      simp [GlobalOutbound.fetch, h]
  · intro h
    simp [GlobalOutbound.fetch, h]

/-- Witness for C1 at concrete hosts. -/
theorem globalOutbound_allowlist_gate_witness :
    ("evil.example" ∉ ALLOWED_HOSTNAMES ∧
      GlobalOutbound.fetch ⟨"evil.example", "p"⟩ =
        .forbidden 403 ("Forbidden: requests to " ++ "evil.example" ++ " are not allowed")) ∧
    ("api.cloudflare.com" ∈ ALLOWED_HOSTNAMES ∧
      GlobalOutbound.fetch ⟨"api.cloudflare.com", "p"⟩ =
        .forwarded ⟨"api.cloudflare.com", "p"⟩) :=
  ⟨⟨by decide, ((globalOutbound_allowlist_gate ⟨"evil.example", "p"⟩).1 (by decide)).1⟩,
   ⟨by decide, (globalOutbound_allowlist_gate ⟨"api.cloudflare.com", "p"⟩).2 (by decide)⟩⟩

/-! ## C5: the direct-token structural sniff -/

/-- Claim C5: for a request carrying `Authorization: Bearer <token>`,
`isDirectApiToken` returns false exactly when splitting the token on `:`
yields exactly 3 segments, and true for every other segment count. -/
theorem isDirectApiToken_segments (tok : String) :
    (isDirectApiToken { authorization := some ("Bearer " ++ tok) } = false ↔
      (strSplitOn tok ':').length = 3) := by
  have hpre : strStartsWith ("Bearer " ++ tok) ("Bearer ") = true := by
    simp [strStartsWith, String.data_append, List.isPrefixOf_iff_prefix]
  have hdrop : strDropChars ("Bearer " ++ tok) 7 = tok := by
    have h7 : ("Bearer ").data.length = 7 := by decide
    simp [strDropChars, String.data_append, ← h7, List.drop_left]
  simp [isDirectApiToken, hpre, hdrop, bne]

/-- Witness for C5 at concrete tokens. -/
theorem isDirectApiToken_segments_witness :
    isDirectApiToken { authorization := some ("Bearer " ++ "u:g:s") } = false ∧
    isDirectApiToken { authorization := some ("Bearer " ++ "plaintoken") } = true :=
  ⟨(isDirectApiToken_segments "u:g:s").mpr (by decide),
   by
    have h := (isDirectApiToken_segments "plaintoken")
    have : ¬ (strSplitOn "plaintoken" ':').length = 3 := by decide
    revert h this
    cases isDirectApiToken { authorization := some ("Bearer " ++ "plaintoken") } <;> simp⟩

/-! ## C6: account-scoped direct tokens -/

/-- Claim C6: for a direct-API-token request whose upstream identity
lookup resolves to no user: with 0 accessible accounts the handler
returns a 401 (the thrown upstream failure is caught and surfaced, so the
token is rejected as invalid); with more than one account it returns the
400 asking for an `account_id` (the handler consults no caller-supplied
account id at all); with exactly one account it resolves to an
`account_token` bundle carrying that account's id.  The token is
non-empty: an empty bearer token is rejected 401 by the falsy-token
guard before any upstream lookup, so the claim's "upstream identity
lookup resolves to no user" precondition can only arise for non-empty
tokens. -/
theorem handleApiTokenRequest_accountScoped (req : HttpRequest) (tok : String)
    (userData : ApiResp User) (accountsData : ApiResp (List Account))
    (hdirect : isDirectApiToken req = true)
    (htok : extractBearerToken req = some tok) (htokne : tok ≠ "")
    (hnouser : userData.success = false ∨ userData.result = none) :
    (parsedAccounts accountsData = [] →
      handleApiTokenRequest req userData accountsData =
        .unauthorized ("Failed to fetch user or accounts")) ∧
    (1 < (parsedAccounts accountsData).length →
      handleApiTokenRequest req userData accountsData =
        .badRequest ("Token has access to multiple accounts - use account_id parameter")) ∧
    (∀ a, parsedAccounts accountsData = [a] →
      handleApiTokenRequest req userData accountsData =
        .mcpResponse tok (some a.id) (.account_token tok a)) := by
  have hgua : getUserAndAccounts userData accountsData =
      (if (parsedAccounts accountsData).length > 0
        then .ok (none, parsedAccounts accountsData)
        else .error ("Failed to fetch user or accounts")) := by
    obtain ⟨su, ru⟩ := userData
    rcases hnouser with h | h
    · subst h
      cases ru <;> simp [getUserAndAccounts]
    · subst h
      cases su <;> simp [getUserAndAccounts]
  have hne : (tok == "") = false := by simpa using htokne
  refine ⟨?_, ?_, ?_⟩
  · intro hacc
    simp [handleApiTokenRequest, hdirect, htok, hne, hgua, hacc]
  · intro hlen
    have hpos : (parsedAccounts accountsData).length > 0 := by omega
    simp only [handleApiTokenRequest, hdirect, Bool.not_true, Bool.false_eq_true,
      if_false, htok, hne, hgua, hpos, if_true, if_pos hpos]
    match hacc : parsedAccounts accountsData with
    | [] => rw [hacc] at hlen; simp at hlen
    | [a] => rw [hacc] at hlen; simp at hlen
    | a :: b :: rest => simp
  · intro a hacc
    have hpos : (parsedAccounts accountsData).length > 0 := by rw [hacc]; simp
    simp [handleApiTokenRequest, hdirect, htok, hne, hgua, hacc, hpos, buildAuthProps]

/-- Witness for C6: a user-less token with zero, two, and one accounts. -/
theorem handleApiTokenRequest_accountScoped_witness :
    (isDirectApiToken { authorization := some "Bearer tok" } = true ∧
      extractBearerToken { authorization := some "Bearer tok" } = some "tok" ∧
      ("tok" : String) ≠ "" ∧
      ((false : Bool) = false ∨ (none : Option User) = none)) ∧
    handleApiTokenRequest { authorization := some "Bearer tok" } ⟨false, none⟩ ⟨false, none⟩ =
      .unauthorized ("Failed to fetch user or accounts") ∧
    handleApiTokenRequest { authorization := some "Bearer tok" } ⟨false, none⟩
        ⟨true, some [⟨"a1", "One"⟩, ⟨"a2", "Two"⟩]⟩ =
      .badRequest ("Token has access to multiple accounts - use account_id parameter") ∧
    handleApiTokenRequest { authorization := some "Bearer tok" } ⟨false, none⟩
        ⟨true, some [⟨"a1", "One"⟩]⟩ =
      .mcpResponse "tok" (some "a1") (.account_token "tok" ⟨"a1", "One"⟩) :=
  ⟨⟨by decide, by decide, by decide, Or.inl rfl⟩,
   (handleApiTokenRequest_accountScoped _ "tok" ⟨false, none⟩ ⟨false, none⟩
      (by decide) (by decide) (by decide) (Or.inl rfl)).1 (by decide),
   (handleApiTokenRequest_accountScoped _ "tok" ⟨false, none⟩
      ⟨true, some [⟨"a1", "One"⟩, ⟨"a2", "Two"⟩]⟩
      (by decide) (by decide) (by decide) (Or.inl rfl)).2.1 (by decide),
   (handleApiTokenRequest_accountScoped _ "tok" ⟨false, none⟩
      ⟨true, some [⟨"a1", "One"⟩]⟩
      (by decide) (by decide) (by decide) (Or.inl rfl)).2.2 ⟨"a1", "One"⟩ (by decide)⟩

/-! ## C4: dispatcher ordering and the Global-API-Key path -/

/-- Counterexample to claim C4: a request carrying both `X-Auth-Email`
and `X-Auth-Key` (and no bearer token) is a Global-API-Key request, yet
`default.fetch` hands it to the OAuth path — the dispatcher never
consults the Global-API-Key classifier, so that classification does not
happen before the direct-token and OAuth paths. -/
theorem dispatcher_globalApiKey_cex :
    isGlobalApiKey { xAuthEmail := some "admin@example.com", xAuthKey := some "key123" } = true ∧
    defaultFetch { xAuthEmail := some "admin@example.com", xAuthKey := some "key123" }
        ⟨true, some ⟨"u1", "admin@example.com"⟩⟩ ⟨true, some [⟨"a1", "Main"⟩]⟩ = .oauth := by
  decide

/-- Claim C4 (amended): `default.fetch` checks only the direct-token
shape — a direct-shaped bearer goes to the API-token handler, everything
else (Global-API-Key headers included) goes to OAuth, and the
Global-API-Key handler is never invoked by the dispatcher.  The handler
itself, when invoked, resolves to a `global_api_key` bundle on successful
verification, and returns a 401 carrying the upstream error message on
verification failure. -/
theorem dispatcher_and_globalApiKey_amended :
    (∀ req userData accountsData, isDirectApiToken req = false →
      defaultFetch req userData accountsData = .oauth) ∧
    (∀ req userData accountsData, isDirectApiToken req = true →
      defaultFetch req userData accountsData =
        .apiToken (handleApiTokenRequest req userData accountsData)) ∧
    (∀ req userData accountsData u accounts, isGlobalApiKey req = true →
      getUserAndAccounts userData accountsData = .ok (some u, accounts) →
      handleGlobalApiKeyRequest req userData accountsData =
        some (.mcpResponse "" none
          (.global_api_key (req.xAuthEmail.getD "") (req.xAuthKey.getD "") u accounts))) ∧
    (∀ req userData accountsData accounts, isGlobalApiKey req = true →
      getUserAndAccounts userData accountsData = .ok (none, accounts) →
      handleGlobalApiKeyRequest req userData accountsData =
        some (.unauthorized ("Failed to verify Global API Key"))) ∧
    (∀ req userData accountsData msg, isGlobalApiKey req = true →
      getUserAndAccounts userData accountsData = .error msg →
      handleGlobalApiKeyRequest req userData accountsData =
        some (.unauthorized msg)) := by
  refine ⟨?_, ?_, ?_, ?_, ?_⟩
  · intro req userData accountsData h
    simp [defaultFetch, h]
  · intro req userData accountsData h
    have hne : handleApiTokenRequest req userData accountsData ≠ .notApiToken := by
      unfold handleApiTokenRequest
      rw [h]
      simp only [Bool.not_true, Bool.false_eq_true, if_false]
      rcases extractBearerToken req with _ | t
      · simp
      · by_cases ht : (t == "") = true
        · simp [ht]
        · have ht' : (t == "") = false := by simpa using ht
          rcases getUserAndAccounts userData accountsData with e | ⟨u, accounts⟩
          · simp [ht']
          · rcases u with _ | u
            · rcases accounts with _ | ⟨a, _ | ⟨b, rest⟩⟩ <;> simp [ht', buildAuthProps]
            · simp [ht', buildAuthProps]
    unfold defaultFetch
    rw [h, if_pos rfl]
    cases hh : handleApiTokenRequest req userData accountsData with
    | notApiToken => exact absurd hh hne
    | unauthorized m => rfl
    | badRequest m => rfl
    | mcpResponse t aid p => rfl
  · intro req userData accountsData u accounts h hg
    simp [handleGlobalApiKeyRequest, h, hg]
  · intro req userData accountsData accounts h hg
    simp [handleGlobalApiKeyRequest, h, hg]
  · intro req userData accountsData msg h hg
    simp [handleGlobalApiKeyRequest, h, hg]

/-- Witness for the amended C4 at concrete requests. -/
theorem dispatcher_and_globalApiKey_amended_witness :
    (isDirectApiToken { xAuthEmail := some "a@b.c", xAuthKey := some "k" } = false ∧
      defaultFetch { xAuthEmail := some "a@b.c", xAuthKey := some "k" }
        ⟨true, some ⟨"u1", "a@b.c"⟩⟩ ⟨true, some []⟩ = .oauth) ∧
    (isDirectApiToken { authorization := some "Bearer tok" } = true ∧
      defaultFetch { authorization := some "Bearer tok" } ⟨false, none⟩ ⟨false, none⟩ =
        .apiToken (handleApiTokenRequest { authorization := some "Bearer tok" }
          ⟨false, none⟩ ⟨false, none⟩)) ∧
    (handleGlobalApiKeyRequest { xAuthEmail := some "a@b.c", xAuthKey := some "k" }
        ⟨true, some ⟨"u1", "a@b.c"⟩⟩ ⟨true, some [⟨"a1", "Main"⟩]⟩ =
      some (.mcpResponse "" none
        (.global_api_key "a@b.c" "k" ⟨"u1", "a@b.c"⟩ [⟨"a1", "Main"⟩]))) ∧
    (handleGlobalApiKeyRequest { xAuthEmail := some "a@b.c", xAuthKey := some "k" }
        ⟨false, none⟩ ⟨false, none⟩ =
      some (.unauthorized ("Failed to fetch user or accounts"))) :=
  ⟨⟨by decide, dispatcher_and_globalApiKey_amended.1 _ _ _ (by decide)⟩,
   ⟨by decide, dispatcher_and_globalApiKey_amended.2.1 _ _ _ (by decide)⟩,
   dispatcher_and_globalApiKey_amended.2.2.1 _ _ _ ⟨"u1", "a@b.c"⟩ [⟨"a1", "Main"⟩]
     (by decide) rfl,
   dispatcher_and_globalApiKey_amended.2.2.2.2 _ _ _ "Failed to fetch user or accounts"
     (by decide) rfl⟩

/-! ## C7: CSRF validation on the approval POST -/

/-- Claim C7: an approval-form POST whose `csrf_token` field is missing,
not a string, or empty, or does not equal the CSRF cookie (including an
absent cookie), makes `parseRedirectApproval` throw — before the state
payload is even decoded, so its validity is irrelevant — and a thrown
parse means the consent POST records no approval (it propagates the
error). -/
theorem parseRedirectApproval_csrf (req : ApprovalRequest)
    (decodeState : String → Option ApprovalState)
    (verifyApproved : String → Option (List String))
    (hm : req.method = "POST") :
    (formGet req.form ("csrf_token") = none →
      parseRedirectApproval req decodeState verifyApproved =
        .error ("Missing CSRF token")) ∧
    (formGet req.form ("csrf_token") = some .file →
      parseRedirectApproval req decodeState verifyApproved =
        .error ("Missing CSRF token")) ∧
    (formGet req.form ("csrf_token") = some (.str "") →
      parseRedirectApproval req decodeState verifyApproved =
        .error ("Missing CSRF token")) ∧
    (∀ t, formGet req.form ("csrf_token") = some (.str t) → t ≠ "" →
      cookieValue req.cookieHeader CSRF_COOKIE = none →
      parseRedirectApproval req decodeState verifyApproved =
        .error ("CSRF token mismatch")) ∧
    (∀ t c, formGet req.form ("csrf_token") = some (.str t) → t ≠ "" →
      cookieValue req.cookieHeader CSRF_COOKIE = some c → c ≠ t →
      parseRedirectApproval req decodeState verifyApproved =
        .error ("CSRF token mismatch")) ∧
    (∀ e, parseRedirectApproval req decodeState verifyApproved = .error e →
      postAuthorize req decodeState verifyApproved = .error e) := by
  have hmethod : (req.method != "POST") = false := by simp [hm]
  refine ⟨?_, ?_, ?_, ?_, ?_, ?_⟩
  · intro h
    simp [parseRedirectApproval, hmethod, h]
  · intro h
    simp [parseRedirectApproval, hmethod, h]
  · intro h
    simp [parseRedirectApproval, hmethod, h]
  · intro t h ht hc
    simp [parseRedirectApproval, hmethod, h, ht, hc]
  · intro t c h ht hc hne
    by_cases hce : c = ""
    · simp [parseRedirectApproval, hmethod, h, ht, hc, hce]
    · have : (t != c) = true := by
        simp
        exact fun he => hne he.symm
      simp [parseRedirectApproval, hmethod, h, ht, hc, hce, this]
  · intro e h
    simp [postAuthorize, h]

/-- Witness for C7: each CSRF failure mode at a concrete request; the
state payload is valid throughout. -/
theorem parseRedirectApproval_csrf_witness :
    (parseRedirectApproval ⟨"POST", [(("state"), .str "S")], some ("__Host-CSRF_TOKEN=t")⟩
        (fun _ => some ⟨some ⟨"c1", []⟩⟩) (fun _ => none) = .error ("Missing CSRF token")) ∧
    (parseRedirectApproval
        ⟨"POST", [(("csrf_token"), .str "t"), (("state"), .str "S")], none⟩
        (fun _ => some ⟨some ⟨"c1", []⟩⟩) (fun _ => none) = .error ("CSRF token mismatch")) ∧
    (parseRedirectApproval
        ⟨"POST", [(("csrf_token"), .str "forged"), (("state"), .str "S")],
          some ("__Host-CSRF_TOKEN=t")⟩
        (fun _ => some ⟨some ⟨"c1", []⟩⟩) (fun _ => none) = .error ("CSRF token mismatch")) ∧
    (postAuthorize ⟨"POST", [(("state"), .str "S")], some ("__Host-CSRF_TOKEN=t")⟩
        (fun _ => some ⟨some ⟨"c1", []⟩⟩) (fun _ => none) = .error ("Missing CSRF token")) :=
  ⟨(parseRedirectApproval_csrf _ _ _ rfl).1 (by decide),
   (parseRedirectApproval_csrf _ _ _ rfl).2.2.2.1 "t" (by decide) (by decide) (by decide),
   (parseRedirectApproval_csrf _ _ _ rfl).2.2.2.2.1 "forged" "t" (by decide) (by decide)
     (by decide) (by decide),
   (parseRedirectApproval_csrf _ _ _ rfl).2.2.2.2.2 ("Missing CSRF token")
     ((parseRedirectApproval_csrf _ _ _ rfl).1 (by decide))⟩

/-! ## C3: consent-form scope selection -/

/-- Counterexample to claim C3: a consent POST that passes CSRF and state
validation but submits no checkbox scopes persists and redirects with the
empty scope list, not the default template's (non-empty) scope list. -/
theorem consentScopes_cex :
    postAuthorize
        ⟨"POST", [(("csrf_token"), .str "t"), (("state"), .str "S")],
          some ("__Host-CSRF_TOKEN=t")⟩
        (fun _ => some ⟨some ⟨"client1", readOnlyTemplate.scopes⟩⟩) (fun _ => none) =
      .ok ⟨⟨"client1", []⟩, [], ""⟩ ∧
    (SCOPE_TEMPLATES.find? (fun kv => kv.1 == DEFAULT_TEMPLATE)).map
        (fun kv => kv.2.scopes) = some readOnlyTemplate.scopes ∧
    readOnlyTemplate.scopes ≠ [] := by
  decide

/-- Claim C3 (amended): for a consent POST that passes CSRF and state
validation, the scope list persisted into the pending authorization state
and sent in the upstream redirect equals the submitted checkbox scopes
capped at `MAX_SCOPES` when at least one checkbox value was submitted,
and equals the empty list — not the default template's scopes — when no
checkbox value was submitted. -/
theorem consentScopes_amended (req : ApprovalRequest)
    (decodeState : String → Option ApprovalState)
    (verifyApproved : String → Option (List String))
    (t enc : String) (info : AuthRequest)
    (hm : req.method = "POST")
    (hform : formGet req.form ("csrf_token") = some (.str t)) (ht : t ≠ "")
    (hcookie : cookieValue req.cookieHeader CSRF_COOKIE = some t)
    (hstate : formGet req.form ("state") = some (.str enc)) (henc : enc ≠ "")
    (hdec : decodeState enc = some ⟨some info⟩) (hcid : info.clientId ≠ "") :
    (let submitted := (formGetAll req.form ("scopes")).filterMap
      (fun v => match v with | .str s => some s | .file => none)
     let scopes := (if submitted.length > 0 then submitted else []).take MAX_SCOPES
     postAuthorize req decodeState verifyApproved =
       .ok ⟨{ info with scope := scopes }, scopes, String.intercalate (" ") scopes⟩) := by
  have hmethod : (req.method != "POST") = false := by simp [hm]
  have hparse : parseRedirectApproval req decodeState verifyApproved =
      .ok { state := ⟨some info⟩,
            approvedClients :=
              (let existing :=
                (match cookieValue req.cookieHeader APPROVED_CLIENTS_COOKIE with
                 | none => none
                 | some v => verifyApproved v).getD []
               if existing.contains info.clientId then existing
               else existing ++ [info.clientId]),
            selectedScopes :=
              (let submitted := (formGetAll req.form ("scopes")).filterMap
                (fun v => match v with | .str s => some s | .file => none)
               if submitted.length > 0 then some submitted else none),
            selectedTemplate :=
              (match formGet req.form ("scope_template") with
               | some (.str s) => some s
               | _ => none) } := by
    simp [parseRedirectApproval, hmethod, hform, ht, hcookie, hstate, henc, hdec, hcid]
  simp only [postAuthorize, hparse]
  by_cases hs : ((formGetAll req.form ("scopes")).filterMap
      (fun v => match v with | .str s => some s | .file => none)).length > 0
  · simp [postAuthorizeScopes, hs]
  · simp [postAuthorizeScopes, hs]

/-- Witness for the amended C3: one consent POST with two checkboxes, one
with none. -/
theorem consentScopes_amended_witness :
    postAuthorize
        ⟨"POST", [(("csrf_token"), .str "t"), (("state"), .str "S"),
          (("scopes"), .str "workers:read"), (("scopes"), .str "zone:read")],
          some ("__Host-CSRF_TOKEN=t")⟩
        (fun _ => some ⟨some ⟨"client1", []⟩⟩) (fun _ => none) =
      .ok ⟨⟨"client1", ["workers:read", "zone:read"]⟩, ["workers:read", "zone:read"],
        String.intercalate (" ") ["workers:read", "zone:read"]⟩ ∧
    postAuthorize
        ⟨"POST", [(("csrf_token"), .str "t"), (("state"), .str "S")],
          some ("__Host-CSRF_TOKEN=t")⟩
        (fun _ => some ⟨some ⟨"client1", []⟩⟩) (fun _ => none) =
      .ok ⟨⟨"client1", []⟩, [], String.intercalate (" ") []⟩ := by
  constructor
  · have h := consentScopes_amended
      ⟨"POST", [(("csrf_token"), .str "t"), (("state"), .str "S"),
        (("scopes"), .str "workers:read"), (("scopes"), .str "zone:read")],
        some ("__Host-CSRF_TOKEN=t")⟩
      (fun _ => some ⟨some ⟨"client1", []⟩⟩) (fun _ => none)
      "t" "S" ⟨"client1", []⟩ rfl (by decide) (by decide) (by decide) (by decide)
      (by decide) rfl (by decide)
    revert h
    decide
  · have h := consentScopes_amended
      ⟨"POST", [(("csrf_token"), .str "t"), (("state"), .str "S")],
        some ("__Host-CSRF_TOKEN=t")⟩
      (fun _ => some ⟨some ⟨"client1", []⟩⟩) (fun _ => none)
      "t" "S" ⟨"client1", []⟩ rfl (by decide) (by decide) (by decide) (by decide)
      (by decide) rfl (by decide)
    revert h
    decide

/-! ## C8: single-use pending authorization state -/

/-- Counterexample to claim C8: an invocation whose correlation token has
an existing stored entry but whose session-binding cookie is missing
throws and leaves the entry in place — the deletion is not part of the
read — and a second invocation with the same state token then succeeds
instead of failing. -/
theorem oauthState_singleUse_cex :
    (let kv0 : KVStore := [("oauth:state:t",
        jobj [("oauthReqInfo", jobj [("clientId", .str "c")]), ("codeVerifier", .str "v")])]
     (validateOAuthState id ⟨.decoded (some "t"), none⟩ kv0).1 =
        .error ⟨"invalid_request", "Missing session binding - restart authorization"⟩ ∧
     (validateOAuthState id ⟨.decoded (some "t"), none⟩ kv0).2 = kv0 ∧
     kvGet kv0 ("oauth:state:t") ≠ none ∧
     (validateOAuthState id ⟨.decoded (some "t"), some ("__Host-CONSENTED_STATE=t")⟩
        (validateOAuthState id ⟨.decoded (some "t"), none⟩ kv0).2).1 =
       .ok ⟨jobj [("clientId", .str "c")], "v"⟩) := by
  decide

/-- Deleting a key removes it from the store. -/
theorem kvGet_kvDelete (kv : KVStore) (k : String) : kvGet (kvDelete kv k) k = none := by
  induction kv with
  | nil => rfl
  | cons e rest ih =>
    obtain ⟨ke, ve⟩ := e
    by_cases he : ke == k
    · have hf : (ke != k) = false := by simp [bne, he]
      simpa [kvDelete, List.filter_cons, hf] using ih
    · have hf : (ke != k) = true := by simp [bne, he]
      have hek : (ke == k) = false := by simp [he]
      simp only [kvDelete, List.filter_cons, hf, if_true]
      simp only [kvGet, List.find?_cons, hek] at ih ⊢
      exact ih

/-- Claim C8 (amended): deletion happens exactly on successful
validation: when every validation step passes (token decodes, entry
exists, session cookie matches the hash, stored blob parses), the entry
is deleted as the final step, and a second invocation with the same state
token fails with `invalid_request` (state absent); an invocation that
throws leaves the store untouched. -/
theorem oauthState_singleUse_amended (hashHex : String → String) (req : CallbackRequest)
    (kv : KVStore) (tok : String) (stored : Json) (info : Json) (cv : String)
    (hs : req.stateParam = .decoded (some tok)) (ht : tok ≠ "")
    (hk : kvGet kv ("oauth:state:" ++ tok) = some stored)
    (hcv : cookieValue req.cookieHeader STATE_COOKIE = some (hashHex tok))
    (hh : hashHex tok ≠ "")
    (hp : parseStoredOAuthState stored = some (info, cv)) :
    validateOAuthState hashHex req kv =
      (.ok ⟨info, cv⟩, kvDelete kv ("oauth:state:" ++ tok)) ∧
    kvGet (kvDelete kv ("oauth:state:" ++ tok)) ("oauth:state:" ++ tok) = none ∧
    validateOAuthState hashHex req (kvDelete kv ("oauth:state:" ++ tok)) =
      (.error ⟨"invalid_request", "Invalid or expired state"⟩,
        kvDelete kv ("oauth:state:" ++ tok)) := by
  refine ⟨?_, kvGet_kvDelete kv _, ?_⟩
  · simp [validateOAuthState, hs, ht, hk, hcv, hh, hp]
  · simp [validateOAuthState, hs, ht, kvGet_kvDelete]

/-- Witness for the amended C8 at a concrete store and request. -/
theorem oauthState_singleUse_amended_witness :
    (validateOAuthState id ⟨.decoded (some "t"), some ("__Host-CONSENTED_STATE=t")⟩
        [("oauth:state:t",
          jobj [("oauthReqInfo", jobj [("clientId", .str "c")]), ("codeVerifier", .str "v")])] =
      (.ok ⟨jobj [("clientId", .str "c")], "v"⟩,
        kvDelete [("oauth:state:t",
          jobj [("oauthReqInfo", jobj [("clientId", .str "c")]), ("codeVerifier", .str "v")])]
          ("oauth:state:" ++ "t"))) ∧
    validateOAuthState id ⟨.decoded (some "t"), some ("__Host-CONSENTED_STATE=t")⟩
        (kvDelete [("oauth:state:t",
          jobj [("oauthReqInfo", jobj [("clientId", .str "c")]), ("codeVerifier", .str "v")])]
          ("oauth:state:" ++ "t")) =
      (.error ⟨"invalid_request", "Invalid or expired state"⟩,
        kvDelete [("oauth:state:t",
          jobj [("oauthReqInfo", jobj [("clientId", .str "c")]), ("codeVerifier", .str "v")])]
          ("oauth:state:" ++ "t")) := by
  have h := oauthState_singleUse_amended id
    ⟨.decoded (some "t"), some ("__Host-CONSENTED_STATE=t")⟩
    [("oauth:state:t",
      jobj [("oauthReqInfo", jobj [("clientId", .str "c")]), ("codeVerifier", .str "v")])]
    "t" (jobj [("oauthReqInfo", jobj [("clientId", .str "c")]), ("codeVerifier", .str "v")])
    (jobj [("clientId", .str "c")]) "v"
    rfl (by decide) (by decide) (by decide) (by decide) (by decide)
  exact ⟨h.1, h.2.2⟩

/-! ## C2: GraphQL response normalization -/

/-- On an object, JavaScript property access is plain lookup with an
`undefined` default. -/
theorem jsAccess_obj (j : Json) (k : String) (h : j.isObject = true) :
    jsAccess j k = .ok ((jsonGet j k).getD .undefined) := by
  cases j <;> simp_all [jsAccess, Json.isObject]

/-- Claim C2: for a JSON response on a GraphQL-classified path: with
`data` present and `errors` absent, null, non-array or empty the envelope
is `success:true` with `result = data`, empty `errors` and `messages`;
with `data` present and a non-empty `errors` array the envelope is
`success:false`, `result` still `data` (partial data preserved), `errors`
the mapped `\x7bcode, message\x7d` pairs and `messages` exactly one
synthetic summary entry; with non-empty `errors` and `data` null or
undefined the call throws. -/
theorem graphqlNormalize_cases (status : Nat) (path : String) (data : Json)
    (hpath : isGraphQLEndpoint path = true) (hobj : data.isObject = true) :
    (let dataField := (jsonGet data ("data")).getD .undefined
     let errsField := (jsonGet data ("errors")).getD .undefined
     let errs := if errsField.isArray then errsField.arrElems else []
     (errs = [] →
       jsonResponseHandler path status data =
         .ok (.graphql ⟨true, status, dataField, [], []⟩)) ∧
     (∀ l, errs ≠ [] →
       dataField ≠ .null → dataField ≠ .undefined →
       errs.mapM mapGraphQLError = .ok l →
       jsonResponseHandler path status data =
         .ok (.graphql ⟨false, status, dataField, l,
           [⟨.num 0, "Partial response: " ++ toString errs.length ++ " error(s)"⟩]⟩)) ∧
     (errs ≠ [] → (dataField = .null ∨ dataField = .undefined) →
       ∃ msg, jsonResponseHandler path status data = .error msg)) := by
  have hde := jsAccess_obj data ("data") hobj
  have hee := jsAccess_obj data ("errors") hobj
  refine ⟨?_, ?_, ?_⟩
  · intro h
    simp only [jsonResponseHandler, hpath, if_true, graphqlNormalize, hee, hde,
      Bind.bind, Except.bind]
    simp only [h]
    simp [Except.map, List.mapM, List.mapM.loop, Pure.pure, Except.pure]
  · intro l hne hd1 hd2 hmap
    simp only [jsonResponseHandler, hpath, if_true, graphqlNormalize, hee, hde]
    have hlen : 0 < (if ((jsonGet data ("errors")).getD .undefined).isArray
        then ((jsonGet data ("errors")).getD .undefined).arrElems else []).length :=
      List.length_pos.mpr hne
    have hisempty : (if ((jsonGet data ("errors")).getD .undefined).isArray
        then ((jsonGet data ("errors")).getD .undefined).arrElems else []).isEmpty = false := by
      simp [List.isEmpty_iff, hne]
    simp only [List.mapM] at hmap
    simp [Bind.bind, Except.bind, Except.map, hlen, hd1, hd2, hmap, hisempty]
  · intro hne hd
    simp only [jsonResponseHandler, hpath, if_true, graphqlNormalize, hee, hde]
    have hlen : 0 < (if ((jsonGet data ("errors")).getD .undefined).isArray
        then ((jsonGet data ("errors")).getD .undefined).arrElems else []).length :=
      List.length_pos.mpr hne
    rcases hm : List.mapM.loop (fun e => jsAccess e ("message"))
        (if ((jsonGet data ("errors")).getD .undefined).isArray
          then ((jsonGet data ("errors")).getD .undefined).arrElems else []) [] with e | msgs
    · refine ⟨e, ?_⟩
      rcases hd with h | h <;>
        simp [jsonResponseHandler, hpath, graphqlNormalize, hee, hde, Bind.bind,
          Except.bind, Except.map, List.mapM, hlen, h, hm]
    · refine ⟨"GraphQL error: " ++ String.intercalate (", ")
        (msgs.map fun m => match m with | .null => "" | .undefined => "" | m' => jsToString m'), ?_⟩
      rcases hd with h | h <;>
        simp [jsonResponseHandler, hpath, graphqlNormalize, hee, hde, Bind.bind,
          Except.bind, Except.map, List.mapM, hlen, h, hm]

/-- Witness for C2: a pure success, a partial success, and a complete
failure, on the GraphQL path. -/
theorem graphqlNormalize_cases_witness :
    jsonResponseHandler "/graphql" 200 (jobj [("data", jobj [("a", .num 1)])]) =
      .ok (.graphql ⟨true, 200, jobj [("a", .num 1)], [], []⟩) ∧
    jsonResponseHandler "/graphql" 200
        (jobj [("data", jobj [("a", .num 1)]),
               ("errors", jarr [jobj [("message", .str "boom")]])]) =
      .ok (.graphql ⟨false, 200, jobj [("a", .num 1)],
        [⟨.num 0, "boom"⟩],
        [⟨.num 0, "Partial response: " ++ toString (1 : Nat) ++ " error(s)"⟩]⟩) ∧
    (∃ msg, jsonResponseHandler "/graphql" 200
        (jobj [("data", .null), ("errors", jarr [jobj [("message", .str "boom")]])]) =
      .error msg) := by
  refine ⟨?_, ?_, ?_⟩
  · have h := (graphqlNormalize_cases 200 "/graphql" (jobj [("data", jobj [("a", .num 1)])])
      (by decide) (by decide)).1 (by decide)
    revert h
    decide
  · have h := (graphqlNormalize_cases 200 "/graphql"
      (jobj [("data", jobj [("a", .num 1)]),
             ("errors", jarr [jobj [("message", .str "boom")]])])
      (by decide) (by decide)).2.1 [⟨.num 0, "boom"⟩]
      (by decide) (by decide) (by decide) (by decide)
    revert h
    decide
  · exact (graphqlNormalize_cases 200 "/graphql"
      (jobj [("data", .null), ("errors", jarr [jobj [("message", .str "boom")]])])
      (by decide) (by decide)).2.2 (by decide) (Or.inl (by decide))

/-! ## C9: the response truncator -/

/-- An infix of a list is an infix of any left extension. -/
theorem isInfix_append_left {α : Type} (l₀ l₁ l₂ : List α) (h : l₁ <:+: l₂) :
    l₁ <:+: l₀ ++ l₂ := by
  obtain ⟨s, t, hst⟩ := h
  exact ⟨l₀ ++ s, t, by rw [← hst]; simp [List.append_assoc]⟩

/-- Claim C9 (settled against the spec-modelled truncator): a string at
or under the 24000-character limit (6000 tokens × 4 characters) is
returned unmodified — content exactly at the limit is not truncated; a
non-string value whose pretty-printed serialization is within the limit
is returned as that serialization unmodified; a string one character over
the limit is cut at the limit with the marker block appended, and the
output contains both the truncation marker and the token-count figure
with the configured limit; the empty string passes through unchanged. -/
theorem truncateResponse_boundary :
    (∀ s : String, s.length ≤ MAX_CHARS → truncateResponse (.str s) = s) ∧
    (∀ v : Json, (∀ s, v ≠ .str s) → (jsonStringifyPretty v).length ≤ MAX_CHARS →
      truncateResponse v = jsonStringifyPretty v) ∧
    (∀ s : String, s.length = MAX_CHARS + 1 →
      truncateResponse (.str s) = strTake s MAX_CHARS ++ truncMessage s.length ∧
      ("--- TRUNCATED ---").data <:+: (truncateResponse (.str s)).data ∧
      ("~6,000 tokens (limit: 6,000)").data <:+: (truncateResponse (.str s)).data) ∧
    truncateResponse (.str "") = "" := by
  have hbase : ∀ s : String, s.length = MAX_CHARS + 1 →
      truncateResponse (.str s) = strTake s MAX_CHARS ++ truncMessage s.length := by
    intro s h
    have : ¬ s.length ≤ MAX_CHARS := by omega
    simp [truncateResponse, this]
  refine ⟨?_, ?_, ?_, ?_⟩
  · intro s h
    simp [truncateResponse, h]
  · intro v hns h
    cases v with
    | str s => exact absurd rfl (hns s)
    | null => simp_all [truncateResponse, jsonStringifyPretty]
    | undefined => simp_all [truncateResponse, jsonStringifyPretty]
    | bool b => simp_all [truncateResponse, jsonStringifyPretty]
    | num n => simp_all [truncateResponse, jsonStringifyPretty]
    | arrNil => simp_all [truncateResponse, jsonStringifyPretty]
    | arrCons x t => simp_all [truncateResponse, jsonStringifyPretty]
    | objNil => simp_all [truncateResponse, jsonStringifyPretty]
    | objCons k x t => simp_all [truncateResponse, jsonStringifyPretty]
  · intro s h
    refine ⟨hbase s h, ?_, ?_⟩
    · rw [hbase s h, h, String.data_append]
      exact isInfix_append_left _ _ _ (by decide)
    · rw [hbase s h, h, String.data_append]
      exact isInfix_append_left _ _ _ (by decide)
  · simp [truncateResponse]

/-- Witness for C9: the concrete tests' shapes — a short string, an
object, a string exactly at the limit, one character over, and the empty
string. -/
theorem truncateResponse_boundary_witness :
    truncateResponse (.str "Hello, world!") = "Hello, world!" ∧
    truncateResponse (jobj [("foo", .str "bar")]) =
      jsonStringifyPretty (jobj [("foo", .str "bar")]) ∧
    (let exact24k : String := ⟨List.replicate MAX_CHARS 'y'⟩
     truncateResponse (.str exact24k) = exact24k) ∧
    (let over : String := ⟨List.replicate (MAX_CHARS + 1) 'x'⟩
     truncateResponse (.str over) = strTake over MAX_CHARS ++ truncMessage over.length ∧
     ("--- TRUNCATED ---").data <:+: (truncateResponse (.str over)).data) ∧
    truncateResponse (.str "") = "" := by
  have hlen1 : (⟨List.replicate MAX_CHARS 'y'⟩ : String).length = MAX_CHARS := by
    simp [String.length]
  have hlen2 : (⟨List.replicate (MAX_CHARS + 1) 'x'⟩ : String).length = MAX_CHARS + 1 := by
    simp [String.length]
  refine ⟨?_, ?_, ?_, ⟨?_, ?_⟩, ?_⟩
  · exact truncateResponse_boundary.1 "Hello, world!" (by decide)
  · exact truncateResponse_boundary.2.1 (jobj [("foo", .str "bar")])
      (fun s hc => by simp [jobj] at hc) (by decide)
  · exact truncateResponse_boundary.1 _ (le_of_eq hlen1)
  · exact ((truncateResponse_boundary.2.2.1 _ hlen2).1)
  · exact ((truncateResponse_boundary.2.2.1 _ hlen2).2.1)
  · exact truncateResponse_boundary.2.2.2

/-! ## C10: `$ref` resolution round-trip -/

/-- Counterexample to claim C10: the `seen` set is shared across sibling
branches, so a `$ref` whose resolution is non-circular (the claim-side
resolver yields a marker-free result) still comes back with a
`$circular` marker when the same ref string occurs twice in a DAG — the
code's result is not the referenced subtree with its refs resolved. -/
theorem resolveRefs_sharedSeen_cex :
    (let spec0 := jobj [("definitions",
        jobj [("A", jobj [("x", refNode "#/definitions/B"), ("y", refNode "#/definitions/B")]),
              ("B", .num 5)])]
     resolveRefsClaim 20 (refNode "#/definitions/A") spec0 [] =
        some (jobj [("x", .num 5), ("y", .num 5)]) ∧
     Json.hasCircular (jobj [("x", .num 5), ("y", .num 5)]) = false ∧
     (resolveRefs 20 (refNode "#/definitions/A") spec0 []).map Prod.fst =
        some (jobj [("x", .num 5), ("y", jobj [("$circular", .str "#/definitions/B")])]) ∧
     jobj [("x", .num 5), ("y", jobj [("$circular", .str "#/definitions/B")])] ≠
        jobj [("x", .num 5), ("y", .num 5)]) := by
  decide

/-- Every value has positive size. -/
theorem Json.size_pos (j : Json) : 0 < j.size := by
  cases j <;> simp [Json.size]

/-- A ref-free object has no `$ref` key. -/
theorem refFree_jsonGet_ref (j : Json) (h : j.refFree = true) :
    jsonGet j ("$ref") = none := by
  induction j with
  | objCons k v t ihv iht =>
    simp only [Json.refFree, Bool.and_eq_true] at h
    have hk : (k == "$ref") = false := by
      simpa [bne] using h.1.1
    simp [jsonGet, hk, iht h.2]
  | _ => simp [jsonGet]

/-- A ref-free value resolves to itself (with enough fuel), leaving the
`seen` set unchanged. -/
theorem resolveRefs_refFree_aux (fuel : Nat) :
    (∀ j spec seen, j.refFree = true → j.size < fuel →
      resolveRefs fuel j spec seen = some (j, seen)) ∧
    (∀ j spec seen, j.refFree = true → j.size ≤ fuel →
      resolveArr fuel j spec seen = some (j, seen)) ∧
    (∀ j spec seen, j.refFree = true → j.size ≤ fuel →
      resolveObj fuel j spec seen = some (j, seen)) := by
  induction fuel with
  | zero =>
    refine ⟨?_, ?_, ?_⟩ <;> intro j spec seen hf hs <;>
      exact absurd hs (by have := Json.size_pos j; omega)
  | succ f ih =>
    obtain ⟨ihR, ihA, ihO⟩ := ih
    refine ⟨?_, ?_, ?_⟩
    · intro j spec seen hf hs
      cases j with
      | arrCons h t =>
        have hsz : (Json.arrCons h t).size ≤ f := by omega
        simpa [resolveRefs] using ihA (Json.arrCons h t) spec seen hf hsz
      | objCons k v t =>
        have hget := refFree_jsonGet_ref (Json.objCons k v t) hf
        have hsz : (Json.objCons k v t).size ≤ f := by omega
        simpa [resolveRefs, hget] using ihO (Json.objCons k v t) spec seen hf hsz
      | _ => simp [resolveRefs]
    · intro j spec seen hf hs
      cases j with
      | arrCons h t =>
        have hfb : h.refFree = true ∧ t.refFree = true := by
          simpa [Json.refFree, Bool.and_eq_true] using hf
        have hph := Json.size_pos h
        have hpt := Json.size_pos t
        simp only [Json.size] at hs
        have hsh : h.size < f := by omega
        have hst : t.size ≤ f := by omega
        simp [resolveArr, ihR h spec seen hfb.1 hsh, ihA t spec seen hfb.2 hst]
      | _ => simp [resolveArr]
    · intro j spec seen hf hs
      cases j with
      | objCons k v t =>
        have hfb : ((k != "$ref") = true ∧ v.refFree = true) ∧ t.refFree = true := by
          simpa [Json.refFree, Bool.and_eq_true] using hf
        have hpv := Json.size_pos v
        have hpt := Json.size_pos t
        simp only [Json.size] at hs
        have hsv : v.size < f := by omega
        have hst : t.size ≤ f := by omega
        simp [resolveObj, ihR v spec seen hfb.1.2 hsv, ihO t spec seen hfb.2 hst]
      | _ => simp [resolveObj]

/-- Claim C10 (amended): a `$ref` not yet in `seen` whose referenced
subtree contains no further `$ref` resolves to exactly that subtree of
the spec (recording the ref); a ref string encountered a second time
during the traversal — whether through a genuine cycle or through a
repetition in a sibling branch, since the `seen` set is shared by the
whole traversal — is replaced by the `\x7b $circular: ref \x7d` marker
instead of recursing. -/
theorem resolveRefs_amended :
    (∀ spec r seen fuel, seen.contains r = false →
      (refTarget spec r).refFree = true → (refTarget spec r).size < fuel →
      resolveRefs (fuel + 1) (refNode r) spec seen =
        some (refTarget spec r, r :: seen)) ∧
    (∀ spec r seen fuel, seen.contains r = true →
      resolveRefs (fuel + 1) (refNode r) spec seen =
        some (jobj [("$circular", .str r)], seen)) := by
  constructor
  · intro spec r seen fuel hseen hfree hsize
    simp only [resolveRefs, refNode, jobj, jsonGet, beq_self_eq_true, if_true, hseen,
      Bool.false_eq_true, if_false]
    exact (resolveRefs_refFree_aux fuel).1 _ spec _ hfree hsize
  · intro spec r seen fuel hseen
    have hmem : r ∈ seen := by simpa using hseen
    simp [resolveRefs, refNode, jobj, jsonGet, hmem]

/-- Witness for the amended C10: a one-hop ref into a ref-free subtree
resolves to exactly that subtree; the same ref seen again yields the
circular marker. -/
theorem resolveRefs_amended_witness :
    resolveRefs 11 (refNode "#/definitions/T")
        (jobj [("definitions", jobj [("T", jobj [("type", .str "string")])])]) [] =
      some (jobj [("type", .str "string")], ["#/definitions/T"]) ∧
    resolveRefs 11 (refNode "#/definitions/T")
        (jobj [("definitions", jobj [("T", jobj [("type", .str "string")])])])
        ["#/definitions/T"] =
      some (jobj [("$circular", .str "#/definitions/T")], ["#/definitions/T"]) := by
  constructor
  · have h := resolveRefs_amended.1
      (jobj [("definitions", jobj [("T", jobj [("type", .str "string")])])])
      "#/definitions/T" [] 10 (by decide) (by decide) (by decide)
    revert h
    decide
  · exact resolveRefs_amended.2
      (jobj [("definitions", jobj [("T", jobj [("type", .str "string")])])])
      "#/definitions/T" ["#/definitions/T"] 10 (by decide)
